import Mathlib

/-!
Verification of the data-retrieval core of the resume-backend repository:
the JSON Data Store Loader with its in-memory cache
(`app/services/data_service.py`) and the Query Layer
(`DataService.get_projects_data`, `DataService.get_project_by_id`, and the
route-level filtering in `app/routes/data_routes.py`).

The Python code is shallowly embedded: JSON values are an inductive type,
the cache is an association list, the filesystem is a map from filenames to
file contents, and the Python exceptions that the query code can raise
(`AttributeError` from `.get` on a non-dict or `.lower()` on a non-string)
are modelled with `Except`. The loader itself wraps its whole body in a
catch-all exception handler returning `None`, so its embedding is a total
function with no `Except` layer.
-/

namespace ResumeBackend

/-- A parsed JSON value, as produced by `json.load` in Python.
Numbers are modelled as integers; no claim depends on float arithmetic. -/
inductive Json where
  | null
  | bool (b : Bool)
  | num (n : Int)
  | str (s : String)
  | arr (elems : List Json)
  | obj (fields : List (String × Json))
  deriving Repr, BEq

/-- Python exceptions that the embedded query code can raise. -/
inductive PyError where
  | attributeError (msg : String)
  deriving Repr, DecidableEq

/-- Lookup of a key in a Python dict, embedded as first-match lookup in an
association list (keys are unique after `json.load`). -/
def fieldLookup : List (String × Json) → String → Option Json
  | [], _ => none
  | (k1, v1) :: rest, k => if k1 = k then some v1 else fieldLookup rest k

/-- Python `p.get(key, default)`: on a dict, field lookup with a default;
on any non-dict value it raises `AttributeError`. -/
def pyGet (p : Json) (key : String) (default : Json) : Except PyError Json :=
  match p with
  | .obj fields =>
      match fieldLookup fields key with
      | some v => .ok v
      | none => .ok default
  | _ => .error (.attributeError "object has no attribute get")

/-- Lowercasing of a string, the embedding of `str.lower()` in Python
(kernel-reducible, unlike `String.toLower`). -/
def strLower (s : String) : String := ⟨s.data.map Char.toLower⟩

/-- Python `v.lower()`: defined on strings, raises `AttributeError` on every
other value. -/
def pyLower (v : Json) : Except PyError String :=
  match v with
  | .str s => .ok (strLower s)
  | _ => .error (.attributeError "object has no attribute lower")

/-- Python equality `v == b` between a JSON value and a bool. In Python,
`bool` is a subclass of `int`, so `1 == True` and `0 == False` hold; no
other JSON value equals a bool. -/
def pyEqBool (v : Json) (b : Bool) : Bool :=
  match v with
  | .bool b2 => b2 == b
  | .num n => n == (if b then 1 else 0)
  | _ => false

/-- Python equality `v == s` between a JSON value and a string: true exactly
for the equal string, false for every non-string value. -/
def pyEqStr (v : Json) (s : String) : Bool :=
  match v with
  | .str s2 => s2 == s
  | _ => false

/-- Python slice `xs[:n]` with an `int` bound: a nonnegative `n` takes the
first `n` elements; a negative `n` drops the last `-n` elements. -/
def pySliceTo (xs : List α) (n : Int) : List α :=
  if n < 0 then xs.take ((xs.length + n).toNat) else xs.take n.toNat

/-! ## Data Store Loader (`DataService._load_json_file`, `clear_cache`) -/

/-- The in-memory cache `self._cache`: a Python dict from filename to parsed
JSON value, embedded as an insertion-ordered association list. -/
abbrev Cache := List (String × Json)

/-- Lookup in the cache (`filename in self._cache` / `self._cache[filename]`). -/
def cacheLookup : Cache → String → Option Json
  | [], _ => none
  | (k1, v1) :: rest, k => if k1 = k then some v1 else cacheLookup rest k

/-- Python dict assignment `self._cache[filename] = data`: replaces the value
if the key is present, appends otherwise. -/
def dictInsert : Cache → String → Json → Cache
  | [], k, v => [(k, v)]
  | (k1, v1) :: rest, k, v =>
      if k1 = k then (k1, v) :: rest else (k1, v1) :: dictInsert rest k v

/-- What the filesystem holds for a given filename: no file, a file with
malformed JSON, a file whose read raises some other OS error, or a file
with valid JSON content. -/
inductive FileContent where
  | missing
  | invalid
  | unreadable
  | valid (j : Json)
  deriving Repr

/-- Result of one `_load_json_file` call: the returned value, the cache
after the call, and how many times the filesystem was touched. -/
structure LoadOutcome where
  value : Option Json
  cache : Cache
  fsReads : Nat
  deriving Repr

/-- Embedding of `DataService._load_json_file`: return the cached value on a
hit without touching the filesystem; otherwise read the file, returning
`none` on a missing file, a JSON parse error, or any other read error
(each handler returns `None` in the source), and caching the parsed value
only on success. -/
def load_json_file (cache : Cache) (fs : String → FileContent)
    (filename : String) : LoadOutcome :=
  match cacheLookup cache filename with
  | some v => ⟨some v, cache, 0⟩
  | none =>
      match fs filename with
      | .missing => ⟨none, cache, 1⟩
      | .invalid => ⟨none, cache, 1⟩
      | .unreadable => ⟨none, cache, 1⟩
      | .valid j => ⟨some j, dictInsert cache filename j, 1⟩

/-- Embedding of `DataService.clear_cache`: `self._cache.clear()`. -/
def clear_cache (_cache : Cache) : Cache := []

/-! ## Query Layer (`get_projects_data`, `get_project_by_id`, route filter) -/

/-- Embedding of the list comprehension
`[p for p in projects if p.get("category", "").lower() == category.lower()]`.
The first `AttributeError` raised while evaluating the condition
propagates. -/
def filterCategory : List Json → String → Except PyError (List Json)
  | [], _ => .ok []
  | p :: ps, category => do
      let v ← pyGet p "category" (.str "")
      let s ← pyLower v
      let rest ← filterCategory ps category
      if s == strLower category then pure (p :: rest) else pure rest

/-- Embedding of the list comprehension
`[p for p in projects if p.get("featured", False) == featured]`. -/
def filterFeatured : List Json → Bool → Except PyError (List Json)
  | [], _ => .ok []
  | p :: ps, featured => do
      let v ← pyGet p "featured" (.bool false)
      let rest ← filterFeatured ps featured
      if pyEqBool v featured then pure (p :: rest) else pure rest

/-- Embedding of `DataService.get_projects_data`, taking the already-loaded
document (`data = self._load_json_file("projects.json")`) as an argument.
Returns `none` when the document is absent or is not a list; otherwise
applies the category filter when `category` is truthy (not `None` and not
the empty string), the featured filter when `featured` is not `None`, and
the slice `projects[:limit]`. -/
def get_projects_data (data : Option Json) (category : Option String)
    (featured : Option Bool) (limit : Int) :
    Except PyError (Option (List Json)) :=
  match data with
  | none => .ok none
  | some (.arr projects) => do
      let projects1 ←
        match category with
        | some c => if c = "" then pure projects else filterCategory projects c
        | none => pure projects
      let projects2 ←
        match featured with
        | some f => filterFeatured projects1 f
        | none => pure projects1
      pure (some (pySliceTo projects2 limit))
  | some _ => .ok none

/-- Default of the `limit` parameter in both `get_projects_data` and the
`/projects` route: `limit: int = 50`. -/
def defaultLimit : Int := 50

/-- Call of `get_projects_data` with the `limit` argument left absent, so the
declared default of 50 applies. -/
def get_projects_data_default (data : Option Json) (category : Option String)
    (featured : Option Bool) : Except PyError (Option (List Json)) :=
  get_projects_data data category featured defaultLimit

/-- Embedding of the scan `for project in data: if project.get("id") == project_id`
in `DataService.get_project_by_id`. -/
def findById : List Json → String → Except PyError (Option Json)
  | [], _ => .ok none
  | p :: ps, project_id => do
      let v ← pyGet p "id" .null
      if pyEqStr v project_id then pure (some p) else findById ps project_id

/-- Embedding of `DataService.get_project_by_id`, taking the already-loaded
document as an argument: `none` when the document is absent or not a list,
otherwise the first record whose `id` field compares equal (Python `==`)
to the requested id, or `none` when no record matches. -/
def get_project_by_id (data : Option Json) (project_id : String) :
    Except PyError (Option Json) :=
  match data with
  | none => .ok none
  | some (.arr projects) => findById projects project_id
  | some _ => .ok none

/-- Embedding of the filtering body of the `/projects` route handler
(`data_routes.get_projects`, lines 79 to 89), which runs after `load` has
produced a non-`None` document: `projects = data if isinstance(data, list)
else []`, then the same category, featured and limit stages as the
service. -/
def route_filter_projects (data : Json) (category : Option String)
    (featured : Option Bool) (limit : Int) : Except PyError (List Json) :=
  let projects := match data with | .arr xs => xs | _ => []
  do
    let projects1 ←
      match category with
      | some c => if c = "" then pure projects else filterCategory projects c
      | none => pure projects
    let projects2 ←
      match featured with
      | some f => filterFeatured projects1 f
      | none => pure projects1
    pure (pySliceTo projects2 limit)

/-! ## Shape predicates for the documented record model (spec section 3:
a Record is an object; its category field, when present, is a string) -/

/-- Test for a record in the documented sense: a JSON object. -/
def isRecord (p : Json) : Bool :=
  match p with
  | .obj _ => true
  | _ => false

/-- Test that the `json.isArr`-style shape holds: the value is a JSON array. -/
def isArrayDoc (d : Json) : Bool :=
  match d with
  | .arr _ => true
  | _ => false

/-- Test that the category field of a record, when present, is a string, so
that `.lower()` cannot raise on it. -/
def categoryFieldOk (p : Json) : Bool :=
  match p with
  | .obj fields =>
      match fieldLookup fields "category" with
      | some (.str _) => true
      | some _ => false
      | none => true
  | _ => false

/-- Well-formedness of a projects document under the documented data model:
every element is a record whose category field, when present, is a
string. -/
def wfProjects (ps : List Json) : Bool :=
  ps.all (fun p => isRecord p && categoryFieldOk p)

/-! ## Spec-side definitions (following the words of the specification, for
comparison with the code embeddings above) -/

/-- Spec reading of the category value of a record: the designated field,
with a record missing the field treated as having the empty string
(spec section 4.2). On documents satisfying `wfProjects` the non-string
fallback branch is unreachable. -/
def spec_categoryOf (p : Json) : String :=
  match p with
  | .obj fields =>
      match fieldLookup fields "category" with
      | some (.str s) => s
      | some _ => ""
      | none => ""
  | _ => ""

/-- Spec reading of the category criterion (claim C6): keep records whose
category field equals the criterion value under case-insensitive string
comparison. -/
def spec_keepByCategory (p : Json) (c : String) : Bool :=
  strLower (spec_categoryOf p) == strLower c

/-- Spec reading of the featured value of a record: the flag field, with a
record missing the field defaulting to `false` (spec section 4.2). -/
def spec_featuredOf (p : Json) : Json :=
  match p with
  | .obj fields =>
      match fieldLookup fields "featured" with
      | some v => v
      | none => .bool false
  | _ => .bool false

/-- Conjunctive record predicate implemented by the filter pipeline: the
category stage (skipped when the criterion is absent or the empty string,
case-insensitive equality otherwise) AND the featured stage (skipped when
absent, Python equality against the flag value otherwise). -/
def spec_keepRecord (p : Json) (category : Option String)
    (featured : Option Bool) : Bool :=
  (match category with
   | none => true
   | some c => if c = "" then true else spec_keepByCategory p c)
  &&
  (match featured with
   | none => true
   | some f => pyEqBool (spec_featuredOf p) f)

/-- Spec reading of the identifier of a record: the `id` field when it is a
string, absent otherwise (a non-string id can never exactly equal the
requested string identifier). -/
def spec_idOf (p : Json) : Option String :=
  match p with
  | .obj fields =>
      match fieldLookup fields "id" with
      | some (.str s) => some s
      | _ => none
  | _ => none

/-- Spec reading of a point-lookup match: the identifier field exactly equals
the requested value, byte-for-byte, no case folding (spec section 4.2). -/
def spec_matchesId (p : Json) (pid : String) : Bool :=
  match spec_idOf p with
  | some s => s == pid
  | none => false

/-- Spec reading of point lookup (claim C8): the first record in document
order whose identifier exactly equals the requested value, absence when no
record matches. -/
def spec_firstById (projects : List Json) (pid : String) : Option Json :=
  projects.find? (fun p => spec_matchesId p pid)

/-- Boolean test that an `Except` computation returned normally rather than
raising. -/
def exceptOk : Except ε α → Bool
  | .ok _ => true
  | .error _ => false

/-! ## Helper lemmas about the query pipeline -/

theorem pyGet_category_of_wf (p : Json) (h1 : isRecord p = true)
    (h2 : categoryFieldOk p = true) :
    pyGet p "category" (.str "") = .ok (.str (spec_categoryOf p)) := by
  cases p with
  | obj fields =>
      cases hf : fieldLookup fields "category" with
      | none => simp [pyGet, spec_categoryOf, hf]
      | some v =>
          cases v <;> simp_all [pyGet, spec_categoryOf, categoryFieldOk, hf]
  | null => simp [isRecord] at h1
  | bool b => simp [isRecord] at h1
  | num n => simp [isRecord] at h1
  | str s => simp [isRecord] at h1
  | arr xs => simp [isRecord] at h1

theorem pyGet_featured_of_record (p : Json) (h1 : isRecord p = true) :
    pyGet p "featured" (.bool false) = .ok (spec_featuredOf p) := by
  cases p with
  | obj fields =>
      cases hf : fieldLookup fields "featured" with
      | none => simp [pyGet, spec_featuredOf, hf]
      | some v => simp [pyGet, spec_featuredOf, hf]
  | null => simp [isRecord] at h1
  | bool b => simp [isRecord] at h1
  | num n => simp [isRecord] at h1
  | str s => simp [isRecord] at h1
  | arr xs => simp [isRecord] at h1

theorem filterCategory_eq_spec (ps : List Json) (c : String)
    (h : ∀ p ∈ ps, isRecord p = true ∧ categoryFieldOk p = true) :
    filterCategory ps c = .ok (ps.filter (fun p => spec_keepByCategory p c)) := by
  induction ps with
  | nil => simp [filterCategory]
  | cons p ps ih =>
      obtain ⟨hp1, hp2⟩ := h p (List.mem_cons_self p ps)
      have hps : ∀ q ∈ ps, isRecord q = true ∧ categoryFieldOk q = true :=
        fun q hq => h q (List.mem_cons_of_mem p hq)
      have hrest := ih hps
      simp only [filterCategory, pyGet_category_of_wf p hp1 hp2, pyLower, hrest,
        Bind.bind, Except.bind, List.filter_cons, spec_keepByCategory]
      split <;> simp_all [pure, Except.pure]

theorem filterFeatured_eq_spec (ps : List Json) (f : Bool)
    (h : ∀ p ∈ ps, isRecord p = true) :
    filterFeatured ps f
      = .ok (ps.filter (fun p => pyEqBool (spec_featuredOf p) f)) := by
  induction ps with
  | nil => simp [filterFeatured]
  | cons p ps ih =>
      have hp := h p (List.mem_cons_self p ps)
      have hps : ∀ q ∈ ps, isRecord q = true :=
        fun q hq => h q (List.mem_cons_of_mem p hq)
      have hrest := ih hps
      simp only [filterFeatured, pyGet_featured_of_record p hp, hrest,
        Bind.bind, Except.bind, List.filter_cons]
      split <;> simp_all [pure, Except.pure]

theorem findById_eq_spec (ps : List Json) (pid : String)
    (h : ∀ p ∈ ps, isRecord p = true) :
    findById ps pid = .ok (spec_firstById ps pid) := by
  induction ps with
  | nil => simp [findById, spec_firstById]
  | cons p ps ih =>
      have hp := h p (List.mem_cons_self p ps)
      have hps : ∀ q ∈ ps, isRecord q = true :=
        fun q hq => h q (List.mem_cons_of_mem p hq)
      have hrest := ih hps
      cases p with
      | obj fields =>
          have hmatch : pyGet (.obj fields) "id" .null
              = .ok ((fieldLookup fields "id").getD .null) := by
            cases hf : fieldLookup fields "id" <;> simp [pyGet, hf]
          have hcond : pyEqStr ((fieldLookup fields "id").getD .null) pid
              = spec_matchesId (.obj fields) pid := by
            cases hf : fieldLookup fields "id" with
            | none => simp [pyEqStr, spec_matchesId, spec_idOf, hf]
            | some v => cases v <;> simp [pyEqStr, spec_matchesId, spec_idOf, hf]
          simp only [findById, hmatch, Bind.bind, Except.bind, hcond,
            spec_firstById, List.find?_cons, hrest]
          split <;> simp_all [spec_firstById, pure, Except.pure]
      | null => simp [isRecord] at hp
      | bool b => simp [isRecord] at hp
      | num n => simp [isRecord] at hp
      | str s => simp [isRecord] at hp
      | arr xs => simp [isRecord] at hp

/-- Core pipeline equality: on a well-formed array document the service
filter computes the Python slice `[:limit]` of the records satisfying the
conjunction of the supplied criteria, in original document order. -/
theorem get_projects_data_wf (ps : List Json) (cat : Option String)
    (feat : Option Bool) (limit : Int)
    (h : ∀ p ∈ ps, isRecord p = true ∧ categoryFieldOk p = true) :
    get_projects_data (some (Json.arr ps)) cat feat limit
      = .ok (some (pySliceTo (ps.filter (fun p => spec_keepRecord p cat feat))
          limit)) := by
  have hrec : ∀ p ∈ ps, isRecord p = true := fun p hp => (h p hp).1
  rcases cat with _ | c
  · rcases feat with _ | f
    · simp [get_projects_data, spec_keepRecord, Bind.bind, Except.bind,
        pure, Except.pure, List.filter_true]
    · simp [get_projects_data, Bind.bind, Except.bind, pure, Except.pure,
        filterFeatured_eq_spec ps f hrec, spec_keepRecord, Bool.true_and]
  · by_cases hc : c = ""
    · subst hc
      rcases feat with _ | f
      · simp [get_projects_data, spec_keepRecord, Bind.bind, Except.bind,
          pure, Except.pure, List.filter_true]
      · simp [get_projects_data, Bind.bind, Except.bind, pure, Except.pure,
          filterFeatured_eq_spec ps f hrec, spec_keepRecord, Bool.true_and]
    · have hcat := filterCategory_eq_spec ps c h
      rcases feat with _ | f
      · simp [get_projects_data, Bind.bind, Except.bind, pure, Except.pure,
          hcat, hc, spec_keepRecord, Bool.and_true]
      · have hrec2 : ∀ p ∈ ps.filter (fun p => spec_keepByCategory p c),
            isRecord p = true := fun p hp => hrec p (List.mem_of_mem_filter hp)
        have hcomb : (ps.filter (fun p => spec_keepByCategory p c)).filter
              (fun p => pyEqBool (spec_featuredOf p) f)
            = ps.filter (fun p => spec_keepRecord p (some c) (some f)) := by
          rw [List.filter_filter]
          refine List.filter_congr ?_
          intro a _
          simp [spec_keepRecord, hc, Bool.and_comm]
        simp [get_projects_data, Bind.bind, Except.bind, pure, Except.pure,
          hcat, hc, filterFeatured_eq_spec _ f hrec2, hcomb]

/-! ## Helper lemmas about the cache -/

theorem cacheLookup_dictInsert_self (c : Cache) (k : String) (v : Json) :
    cacheLookup (dictInsert c k v) k = some v := by
  induction c with
  | nil => simp [dictInsert, cacheLookup]
  | cons kv rest ih =>
      obtain ⟨k1, v1⟩ := kv
      by_cases h : k1 = k
      · simp [dictInsert, cacheLookup, h]
      · simp [dictInsert, cacheLookup, h, ih]

theorem cacheLookup_dictInsert_ne (c : Cache) (k k2 : String) (v : Json)
    (h : k ≠ k2) : cacheLookup (dictInsert c k v) k2 = cacheLookup c k2 := by
  induction c with
  | nil => simp [dictInsert, cacheLookup, h]
  | cons kv rest ih =>
      obtain ⟨k1, v1⟩ := kv
      by_cases h1 : k1 = k
      · subst h1; simp [dictInsert, cacheLookup, h]
      · simp [dictInsert, cacheLookup, h1, ih]

/-! ## Loader claims -/

/-- Claim C4: a cache hit returns the cached value with no filesystem access
and an unchanged cache; no load mutates, replaces or evicts an existing
entry; and the value cached on a miss is exactly the content parsed from
the file at that first successful read. -/
theorem claim_C4 (c : Cache) (fs : String → FileContent) (f k : String) :
    (∀ v, cacheLookup c f = some v → load_json_file c fs f = ⟨some v, c, 0⟩)
    ∧ (∀ v, cacheLookup c k = some v →
        cacheLookup (load_json_file c fs f).cache k = some v)
    ∧ (∀ j, cacheLookup c f = none → fs f = .valid j →
        load_json_file c fs f = ⟨some j, dictInsert c f j, 1⟩
        ∧ cacheLookup (load_json_file c fs f).cache f = some j) := by
  refine ⟨?_, ?_, ?_⟩
  · intro v hv
    simp [load_json_file, hv]
  · intro v hv
    cases hc : cacheLookup c f with
    | some w => simp [load_json_file, hc, hv]
    | none =>
        cases hf : fs f with
        | missing => simp [load_json_file, hc, hf, hv]
        | invalid => simp [load_json_file, hc, hf, hv]
        | unreadable => simp [load_json_file, hc, hf, hv]
        | valid j =>
            by_cases hk : f = k
            · subst hk
              rw [hc] at hv
              exact absurd hv (by simp)
            · simp only [load_json_file, hc, hf]
              rw [cacheLookup_dictInsert_ne c f k j hk]
              exact hv
  · intro j hc hf
    refine ⟨by simp [load_json_file, hc, hf], ?_⟩
    simp [load_json_file, hc, hf, cacheLookup_dictInsert_self]

/-- Witness for C4 at concrete inputs: a hit on a cached `projects.json`
returns the cached value without a read, and a fresh load caches the parsed
file content. -/
theorem claim_C4_witness :
    load_json_file [("projects.json", Json.arr [])] (fun _ => FileContent.missing)
      "projects.json" = ⟨some (Json.arr []), [("projects.json", Json.arr [])], 0⟩
    ∧ cacheLookup (load_json_file [] (fun _ => FileContent.valid (Json.num 7))
        "projects.json").cache "projects.json" = some (Json.num 7) :=
  ⟨(claim_C4 [("projects.json", Json.arr [])] (fun _ => FileContent.missing)
      "projects.json" "projects.json").1 (Json.arr []) rfl,
   ((claim_C4 [] (fun _ => FileContent.valid (Json.num 7)) "projects.json"
      "projects.json").2.2 (Json.num 7) rfl rfl).2⟩

/-- Claim C5: on a cache miss, a missing file and a file with invalid JSON
both make `load` return the absence marker with the cache unchanged, the
identical outcome in the two failure cases, and no exception is possible
(the embedding of the loader is a total function). -/
theorem claim_C5 (c : Cache) (fs : String → FileContent) (f : String)
    (h : cacheLookup c f = none) :
    (fs f = .missing → load_json_file c fs f = ⟨none, c, 1⟩)
    ∧ (fs f = .invalid → load_json_file c fs f = ⟨none, c, 1⟩) := by
  constructor <;> intro hf <;> simp [load_json_file, h, hf]

/-- Witness for C5: loading `page.json` from an empty cache gives the same
absence outcome whether every file is missing or every file is malformed. -/
theorem claim_C5_witness :
    load_json_file [] (fun _ => FileContent.missing) "page.json" = ⟨none, [], 1⟩
    ∧ load_json_file [] (fun _ => FileContent.invalid) "page.json" = ⟨none, [], 1⟩ :=
  ⟨(claim_C5 [] (fun _ => FileContent.missing) "page.json" rfl).1 rfl,
   (claim_C5 [] (fun _ => FileContent.invalid) "page.json" rfl).2 rfl⟩

/-- Claim C9: `clear_cache` empties the whole cache unconditionally, so every
lookup afterwards misses and a subsequent load of any filename touches the
filesystem again. -/
theorem claim_C9 (c : Cache) (fs : String → FileContent) (f : String) :
    clear_cache c = [] ∧ cacheLookup (clear_cache c) f = none
    ∧ (load_json_file (clear_cache c) fs f).fsReads = 1 := by
  refine ⟨rfl, rfl, ?_⟩
  cases hf : fs f <;> simp [load_json_file, clear_cache, cacheLookup, hf]

/-- Claim C10: whenever `load` returns the absence marker, the cache is
exactly as before the call (failures are never cached), so a subsequent
load of the same filename reads the filesystem again. -/
theorem claim_C10 (c : Cache) (fs : String → FileContent) (f : String)
    (h : (load_json_file c fs f).value = none) :
    (load_json_file c fs f).cache = c
    ∧ (load_json_file ((load_json_file c fs f).cache) fs f).fsReads = 1 := by
  cases hc : cacheLookup c f with
  | some v => simp [load_json_file, hc] at h
  | none =>
      cases hf : fs f with
      | valid j => simp [load_json_file, hc, hf] at h
      | missing => simp [load_json_file, hc, hf]
      | invalid => simp [load_json_file, hc, hf]
      | unreadable => simp [load_json_file, hc, hf]

/-! ## Query Layer claims -/

/-- Counterexample to claim C1 as stated: on a loaded non-array document (an
object) the service filter `get_projects_data` returns the absence marker,
not an empty sequence. -/
theorem claim_C1_counterexample :
    get_projects_data (some (Json.obj [])) none none 50 = .ok none
    ∧ (Except.ok (none : Option (List Json)) : Except PyError (Option (List Json)))
      ≠ .ok (some []) :=
  ⟨rfl, by simp⟩

/-- Claim C1 amended: for an absent or non-array document the service filter
returns the absence marker (never raising), while the route-level filter
body returns an empty sequence for every non-array document it filters. -/
theorem claim_C1_amended :
    (∀ (cat : Option String) (feat : Option Bool) (limit : Int),
        get_projects_data none cat feat limit = .ok none)
    ∧ (∀ (d : Json) (cat : Option String) (feat : Option Bool) (limit : Int),
        isArrayDoc d = false → get_projects_data (some d) cat feat limit = .ok none)
    ∧ (∀ (d : Json) (cat : Option String) (feat : Option Bool) (limit : Int),
        isArrayDoc d = false → route_filter_projects d cat feat limit = .ok []) := by
  refine ⟨fun _ _ _ => rfl, ?_, ?_⟩
  · intro d cat feat limit hd
    cases d with
    | arr xs => simp [isArrayDoc] at hd
    | null => rfl
    | bool b => rfl
    | num n => rfl
    | str s => rfl
    | obj fields => rfl
  · intro d cat feat limit hd
    cases d
    case arr xs => simp [isArrayDoc] at hd
    all_goals
      rcases cat with _ | c
      case none =>
        rcases feat with _ | f <;>
          simp [route_filter_projects, filterFeatured, pySliceTo,
            Bind.bind, Except.bind, pure, Except.pure]
      case some =>
        by_cases hc : c = "" <;> rcases feat with _ | f <;>
          simp [route_filter_projects, hc, filterCategory, filterFeatured,
            pySliceTo, Bind.bind, Except.bind, pure, Except.pure]

/-- Witness for the amended C1 at concrete non-array documents. -/
theorem claim_C1_witness :
    get_projects_data (some (Json.obj [("a", Json.null)])) none none 50 = .ok none
    ∧ route_filter_projects (Json.obj [("a", Json.null)]) (some "ai") (some true) 7
      = .ok [] :=
  ⟨claim_C1_amended.2.1 (Json.obj [("a", Json.null)]) none none 50 rfl,
   claim_C1_amended.2.2 (Json.obj [("a", Json.null)]) (some "ai") (some true) 7 rfl⟩

/-- Counterexample to claim C2 as stated: when the limit criterion is left
absent, the declared default of 50 applies and a 51-record document is
truncated to 50 records, so an absent limit does impose a constraint. -/
theorem claim_C2_counterexample :
    get_projects_data_default (some (Json.arr (List.replicate 51 (Json.obj []))))
      none none = .ok (some (List.replicate 50 (Json.obj [])))
    ∧ (List.replicate 50 (Json.obj [])).length
      ≠ (List.replicate 51 (Json.obj [])).length := by
  constructor
  · simp [get_projects_data_default, get_projects_data, defaultLimit, pySliceTo,
      Bind.bind, Except.bind, pure, Except.pure, List.take_replicate]
  · simp

/-- Claim C2 amended: the limit cannot be absent in the implemented interface;
a call that omits it gets the declared default of 50, so with the category
and featured criteria absent (imposing no constraint) the result is the
first 50 records of the document, untruncated only when the document has at
most 50 records. -/
theorem claim_C2_amended (ps : List Json) :
    get_projects_data_default (some (Json.arr ps)) none none
      = .ok (some (ps.take 50)) := by
  simp [get_projects_data_default, get_projects_data, defaultLimit, pySliceTo,
    Bind.bind, Except.bind, pure, Except.pure]

/-- Counterexample to claim C3 as stated: the query operations are not total
over arbitrary JSON documents — point lookup raises `AttributeError` when a
document element is not an object, and the category filter raises
`AttributeError` when a category field is not a string. -/
theorem claim_C3_counterexample :
    get_project_by_id (some (Json.arr [Json.num 1])) "p1"
      = .error (.attributeError "object has no attribute get")
    ∧ get_projects_data (some (Json.arr [Json.obj [("category", Json.num 5)]]))
        (some "ai") none 50
      = .error (.attributeError "object has no attribute lower") :=
  ⟨rfl, rfl⟩

/-- Claim C3 amended: the loader is total by construction (its embedding
returns a `LoadOutcome` with no error case, mirroring the catch-all
handler in the source), and the query operations are total on every
document of the documented shape: records are objects and category fields,
when present, are strings. -/
theorem claim_C3_amended (ps : List Json) (cat : Option String)
    (feat : Option Bool) (limit : Int) (pid : String)
    (h : wfProjects ps = true) :
    exceptOk (get_projects_data (some (Json.arr ps)) cat feat limit) = true
    ∧ exceptOk (get_project_by_id (some (Json.arr ps)) pid) = true := by
  have hwf : ∀ p ∈ ps, isRecord p = true ∧ categoryFieldOk p = true := by
    simpa [wfProjects, List.all_eq_true, Bool.and_eq_true] using h
  have hrec : ∀ p ∈ ps, isRecord p = true := fun p hp => (hwf p hp).1
  refine ⟨?_, ?_⟩
  · rw [get_projects_data_wf ps cat feat limit hwf]; rfl
  · have hby : get_project_by_id (some (Json.arr ps)) pid = findById ps pid := rfl
    rw [hby, findById_eq_spec ps pid hrec]; rfl

/-- Witness for the amended C3 on a concrete well-formed document. -/
theorem claim_C3_witness :
    exceptOk (get_projects_data
      (some (Json.arr [Json.obj [("id", Json.str "p1"), ("category", Json.str "AI")]]))
      (some "ai") (some true) 5) = true
    ∧ exceptOk (get_project_by_id
      (some (Json.arr [Json.obj [("id", Json.str "p1"), ("category", Json.str "AI")]]))
      "p1") = true :=
  ⟨(claim_C3_amended [Json.obj [("id", Json.str "p1"), ("category", Json.str "AI")]]
      (some "ai") (some true) 5 "p1" rfl).1,
   (claim_C3_amended [Json.obj [("id", Json.str "p1"), ("category", Json.str "AI")]]
      (some "ai") (some true) 5 "p1" rfl).2⟩

/-- Counterexample to claim C6 as stated: with the supplied category
criterion equal to the empty string, the code keeps a record whose category
field is "AI", although that field does not equal the criterion under
case-insensitive comparison (the truthiness test in the source skips the
filter for an empty criterion). -/
theorem claim_C6_counterexample :
    get_projects_data (some (Json.arr [Json.obj [("category", Json.str "AI")]]))
      (some "") none 50 = .ok (some [Json.obj [("category", Json.str "AI")]])
    ∧ spec_keepByCategory (Json.obj [("category", Json.str "AI")]) "" = false :=
  ⟨rfl, rfl⟩

/-- Claim C6 amended: a supplied non-empty category criterion keeps exactly
the records whose category field (with a missing field read as the empty
string) equals the criterion under case-insensitive comparison, on
well-formed documents; a supplied empty-string criterion is treated as
absent and imposes no constraint. -/
theorem claim_C6_amended (ps : List Json) (c : String) (limit : Int)
    (h : wfProjects ps = true) :
    (c ≠ "" → get_projects_data (some (Json.arr ps)) (some c) none limit
        = .ok (some (pySliceTo (ps.filter (fun p => spec_keepByCategory p c))
            limit)))
    ∧ get_projects_data (some (Json.arr ps)) (some "") none limit
        = .ok (some (pySliceTo ps limit)) := by
  have hwf : ∀ p ∈ ps, isRecord p = true ∧ categoryFieldOk p = true := by
    simpa [wfProjects, List.all_eq_true, Bool.and_eq_true] using h
  constructor
  · intro hc
    rw [get_projects_data_wf ps (some c) none limit hwf]
    have heq : ∀ p ∈ ps, spec_keepRecord p (some c) none = spec_keepByCategory p c := by
      intro p _
      simp [spec_keepRecord, hc]
    rw [List.filter_congr heq]
  · rw [get_projects_data_wf ps (some "") none limit hwf]
    simp [spec_keepRecord, List.filter_true]

/-- Witness for the amended C6: the criterion "AI" keeps exactly the record
whose category is "ai" (case-insensitive match) out of three records. -/
theorem claim_C6_witness :
    get_projects_data (some (Json.arr [Json.obj [("category", Json.str "ai")],
      Json.obj [("category", Json.str "Web")], Json.obj []])) (some "AI") none 50
      = .ok (some [Json.obj [("category", Json.str "ai")]]) :=
  (claim_C6_amended [Json.obj [("category", Json.str "ai")],
    Json.obj [("category", Json.str "Web")], Json.obj []] "AI" 50 rfl).1
    (by decide)

/-- Counterexample to claim C7 as stated: the featured criterion is not
matched by exact equality — Python equality identifies the number 1 with
`True`, so a record whose featured field is the number 1 is kept for the
criterion `featured = True`; moreover a negative limit is not a prefix
bound: `limit = -1` on three matching records returns two of them. -/
theorem claim_C7_counterexample :
    get_projects_data (some (Json.arr [Json.obj [("featured", Json.num 1)]]))
      none (some true) 50 = .ok (some [Json.obj [("featured", Json.num 1)]])
    ∧ Json.num 1 ≠ Json.bool true
    ∧ get_projects_data (some (Json.arr [Json.obj [], Json.obj [], Json.obj []]))
        none none (-1) = .ok (some [Json.obj [], Json.obj []]) :=
  ⟨rfl, fun h => Json.noConfusion h, rfl⟩

/-- Claim C7 amended: on well-formed documents the filter result is the
Python slice `[:limit]` of the subsequence of records satisfying every
supplied criterion conjunctively, in original document order, where the
featured criterion is matched by Python equality (the numbers 1 and 0
equal `True` and `False`); for a nonnegative limit the slice is the prefix
of at most `limit` elements. -/
theorem claim_C7_amended (ps : List Json) (cat : Option String)
    (feat : Option Bool) (limit : Int) (h : wfProjects ps = true) :
    get_projects_data (some (Json.arr ps)) cat feat limit
      = .ok (some (pySliceTo (ps.filter (fun p => spec_keepRecord p cat feat))
          limit))
    ∧ (0 ≤ limit →
        pySliceTo (ps.filter (fun p => spec_keepRecord p cat feat)) limit
          = (ps.filter (fun p => spec_keepRecord p cat feat)).take limit.toNat) := by
  have hwf : ∀ p ∈ ps, isRecord p = true ∧ categoryFieldOk p = true := by
    simpa [wfProjects, List.all_eq_true, Bool.and_eq_true] using h
  refine ⟨get_projects_data_wf ps cat feat limit hwf, fun hl => ?_⟩
  unfold pySliceTo
  rw [if_neg (not_lt.mpr hl)]

/-- Witness for the amended C7: conjunctive filtering with a limit of 1 over
three records keeps the first record matching both criteria. -/
theorem claim_C7_witness :
    get_projects_data (some (Json.arr
      [Json.obj [("category", Json.str "AI"), ("featured", Json.bool true)],
       Json.obj [("category", Json.str "ai")],
       Json.obj [("category", Json.str "web"), ("featured", Json.bool true)]]))
      (some "AI") (some true) 1
      = .ok (some [Json.obj [("category", Json.str "AI"),
          ("featured", Json.bool true)]]) :=
  (claim_C7_amended
    [Json.obj [("category", Json.str "AI"), ("featured", Json.bool true)],
     Json.obj [("category", Json.str "ai")],
     Json.obj [("category", Json.str "web"), ("featured", Json.bool true)]]
    (some "AI") (some true) 1 rfl).1

/-- Claim C8: on a document whose elements are records (objects, per the
documented data model), point lookup returns the first record in document
order whose identifier field exactly equals the requested value (string
equality, no case folding), and the absence marker when no record
matches. -/
theorem claim_C8 (ps : List Json) (pid : String) (h : ps.all isRecord = true) :
    get_project_by_id (some (Json.arr ps)) pid = .ok (spec_firstById ps pid)
    ∧ ((∀ p ∈ ps, spec_matchesId p pid = false) →
        get_project_by_id (some (Json.arr ps)) pid = .ok none) := by
  have hrec : ∀ p ∈ ps, isRecord p = true := by
    simpa [List.all_eq_true] using h
  have hmain : get_project_by_id (some (Json.arr ps)) pid
      = .ok (spec_firstById ps pid) := findById_eq_spec ps pid hrec
  refine ⟨hmain, fun hnone => ?_⟩
  have hfind : List.find? (fun p => spec_matchesId p pid) ps = none :=
    List.find?_eq_none.mpr (fun x hx => by simp [hnone x hx])
  rw [hmain, spec_firstById, hfind]

/-- Witness for C8: the lookup of "p2" returns the first of two records with
that identifier, and the lookup of "P1" (a case variant of "p1") returns
absence because matching does not case-fold. -/
theorem claim_C8_witness :
    get_project_by_id (some (Json.arr
      [Json.obj [("id", Json.str "p1")],
       Json.obj [("id", Json.str "p2")],
       Json.obj [("id", Json.str "p2"), ("x", Json.num 2)]])) "p2"
      = .ok (some (Json.obj [("id", Json.str "p2")]))
    ∧ get_project_by_id (some (Json.arr [Json.obj [("id", Json.str "p1")]])) "P1"
      = .ok none :=
  ⟨(claim_C8 [Json.obj [("id", Json.str "p1")], Json.obj [("id", Json.str "p2")],
      Json.obj [("id", Json.str "p2"), ("x", Json.num 2)]] "p2" rfl).1,
   (claim_C8 [Json.obj [("id", Json.str "p1")]] "P1" rfl).1⟩

/-- Witness for C10: a load of `projects.json` that fails because the file is
missing leaves the empty cache empty, and the retry reads the filesystem. -/
theorem claim_C10_witness :
    (load_json_file [] (fun _ => FileContent.missing) "projects.json").value = none
    ∧ (load_json_file [] (fun _ => FileContent.missing) "projects.json").cache = []
    ∧ (load_json_file ((load_json_file [] (fun _ => FileContent.missing)
        "projects.json").cache) (fun _ => FileContent.missing)
        "projects.json").fsReads = 1 :=
  ⟨rfl, (claim_C10 [] (fun _ => FileContent.missing) "projects.json" rfl).1,
   (claim_C10 [] (fun _ => FileContent.missing) "projects.json" rfl).2⟩

end ResumeBackend
